import Mathlib

/-
Shallow embedding of the trade-execution and accounting core of the
backtest repository: the Portfolio class (engine/portfolio.py), the
per-bar execution loop of Backtester._execute_trades (engine/backtest.py),
and the performance/risk metrics (analytics/metrics.py,
Backtester._calculate_max_drawdown).  Python floats are modelled as exact
rationals; timestamps as naturals.
-/

namespace Backtest

/-- Position types (engine/portfolio.py, class PositionType). -/
inductive PositionType where
  | LONG
  | SHORT
deriving DecidableEq

/-- Signal values emitted by a strategy (strategies/base_strategy.py, SignalType). -/
inductive SignalType where
  | BUY
  | SELL
  | HOLD
deriving DecidableEq

/-- Trade status: the Python code uses the strings "OPEN" and "CLOSED". -/
inductive TradeStatus where
  | OPEN
  | CLOSED
deriving DecidableEq

/-- One trade record (engine/portfolio.py, dataclass Trade). -/
structure Trade where
  entry_time : ℕ
  exit_time : Option ℕ
  position_type : PositionType
  entry_price : ℚ
  exit_price : ℚ
  quantity : ℚ
  commission : ℚ
  pnl : ℚ
  pnl_percent : ℚ
  status : TradeStatus
deriving DecidableEq

instance : Inhabited Trade :=
  ⟨⟨0, none, .LONG, 0, 0, 0, 0, 0, 0, .OPEN⟩⟩

/-- Trade.close_trade: set exit fields, compute realized P&L
(subtracting the entry commission stored on the trade and the exit
commission), then accumulate the exit commission; P&L percent is set only
when entry_price > 0. -/
def Trade.close_trade (tr : Trade) (exit_time : ℕ) (exit_price : ℚ)
    (commission : ℚ) : Trade :=
  let pnl :=
    match tr.position_type with
    | .LONG => (exit_price - tr.entry_price) * tr.quantity - tr.commission - commission
    | .SHORT => (tr.entry_price - exit_price) * tr.quantity - tr.commission - commission
  let pnl_percent :=
    if tr.entry_price > 0 then
      match tr.position_type with
      | .LONG => ((exit_price - tr.entry_price) / tr.entry_price) * 100
      | .SHORT => ((tr.entry_price - exit_price) / tr.entry_price) * 100
    else tr.pnl_percent
  { tr with
    exit_time := some exit_time
    exit_price := exit_price
    status := .CLOSED
    pnl := pnl
    commission := tr.commission + commission
    pnl_percent := pnl_percent }

/-- Trade.is_winner: pnl > 0. -/
def Trade.is_winner (tr : Trade) : Bool :=
  tr.pnl > 0

/-- Current position (engine/portfolio.py, dataclass Position). -/
structure Position where
  position_type : PositionType
  entry_time : ℕ
  entry_price : ℚ
  quantity : ℚ
  current_price : ℚ
deriving DecidableEq

/-- Position.unrealized_pnl. -/
def Position.unrealized_pnl (p : Position) : ℚ :=
  match p.position_type with
  | .LONG => (p.current_price - p.entry_price) * p.quantity
  | .SHORT => (p.entry_price - p.current_price) * p.quantity

/-- Portfolio state (engine/portfolio.py, class Portfolio). -/
structure Portfolio where
  initial_capital : ℚ
  commission_rate : ℚ
  position_size : ℚ
  allow_short : Bool
  cash : ℚ
  equity : ℚ
  current_position : Option Position
  trades : List Trade
  equity_curve : List ℚ
  timestamps : List ℕ
deriving DecidableEq

/-- Portfolio.__init__ / Portfolio.reset: fresh state with all tracking empty. -/
def mkPortfolio (initial_capital commission_rate position_size : ℚ)
    (allow_short : Bool) : Portfolio :=
  { initial_capital := initial_capital
    commission_rate := commission_rate
    position_size := position_size
    allow_short := allow_short
    cash := initial_capital
    equity := initial_capital
    current_position := none
    trades := []
    equity_curve := []
    timestamps := [] }

/-- Auto-derived quantity when open_position is called without an explicit
quantity: position_value = cash × position_size / (1 + commission_rate),
quantity = position_value / price. -/
def autoQuantity (s : Portfolio) (price : ℚ) : ℚ :=
  (s.cash * s.position_size / (1 + s.commission_rate)) / price

/-- Portfolio.open_position.  Returns the Python bool result together with
the updated state. -/
def Portfolio.open_position (s : Portfolio) (timestamp : ℕ) (price : ℚ)
    (position_type : PositionType) (quantity? : Option ℚ) : Bool × Portfolio :=
  if s.current_position.isSome then (false, s)
  else if position_type = .SHORT ∧ s.allow_short = false then (false, s)
  else
    let quantity :=
      match quantity? with
      | none => autoQuantity s price
      | some q => q
    let commission := quantity * price * s.commission_rate
    let required_capital := quantity * price + commission
    if required_capital > s.cash then (false, s)
    else
      (true,
        { s with
          current_position := some
            { position_type := position_type
              entry_time := timestamp
              entry_price := price
              quantity := quantity
              current_price := price }
          cash := s.cash - required_capital
          trades := s.trades ++
            [{ entry_time := timestamp
               exit_time := none
               position_type := position_type
               entry_price := price
               exit_price := 0
               quantity := quantity
               commission := commission
               pnl := 0
               pnl_percent := 0
               status := .OPEN }] })

/-- Portfolio.close_position.  The trade mutation and the cash credit are
both guarded by `self.trades and self.trades[-1].status == "OPEN"`; the
position is cleared and True returned in every case where a position was
open. -/
def Portfolio.close_position (s : Portfolio) (timestamp : ℕ) (price : ℚ) :
    Bool × Portfolio :=
  match s.current_position with
  | none => (false, s)
  | some pos =>
    let commission := pos.quantity * price * s.commission_rate
    match s.trades.getLast? with
    | some tr =>
      if tr.status = .OPEN then
        let cash :=
          match pos.position_type with
          | .LONG => s.cash + pos.quantity * price - commission
          | .SHORT =>
            s.cash + pos.quantity * pos.entry_price +
              (pos.entry_price - price) * pos.quantity - commission
        (true,
          { s with
            trades := s.trades.dropLast ++ [tr.close_trade timestamp price commission]
            cash := cash
            current_position := none })
      else (true, { s with current_position := none })
    | none => (true, { s with current_position := none })

/-- Portfolio.update: mark the open position to the given price, recompute
equity as cash + unrealized_pnl + quantity × price (or just cash when no
position is open), and append the (timestamp, equity) sample. -/
def Portfolio.update (s : Portfolio) (timestamp : ℕ) (price : ℚ) : Portfolio :=
  match s.current_position with
  | some pos =>
    let pos1 := { pos with current_price := price }
    let eq := s.cash + pos1.unrealized_pnl + pos1.quantity * price
    { s with
      current_position := some pos1
      equity := eq
      equity_curve := s.equity_curve ++ [eq]
      timestamps := s.timestamps ++ [timestamp] }
  | none =>
    { s with
      equity := s.cash
      equity_curve := s.equity_curve ++ [s.cash]
      timestamps := s.timestamps ++ [timestamp] }

/-- Closed-trade view (Portfolio.get_closed_trades). -/
def closedTrades (trades : List Trade) : List Trade :=
  trades.filter (fun tr => decide (tr.status = .CLOSED))

/-- Portfolio.winning_trades. -/
def winningTrades (trades : List Trade) : ℕ :=
  ((closedTrades trades).filter (fun tr => tr.is_winner)).length

/-- Portfolio.losing_trades. -/
def losingTrades (trades : List Trade) : ℕ :=
  ((closedTrades trades).filter (fun tr => !tr.is_winner)).length

/-- Gross profit in Portfolio.profit_factor: sum of pnl over closed winners. -/
def grossProfit (trades : List Trade) : ℚ :=
  (((closedTrades trades).filter (fun tr => tr.is_winner)).map Trade.pnl).sum

/-- Gross loss in Portfolio.profit_factor: |sum of pnl over closed non-winners|. -/
def grossLoss (trades : List Trade) : ℚ :=
  |(((closedTrades trades).filter (fun tr => !tr.is_winner)).map Trade.pnl).sum|

/-- Portfolio.profit_factor; float('inf') is modelled as ⊤ in WithTop ℚ. -/
def profit_factor (trades : List Trade) : WithTop ℚ :=
  if grossLoss trades = 0 then
    (if grossProfit trades > 0 then ⊤ else 0)
  else ((grossProfit trades / grossLoss trades : ℚ) : WithTop ℚ)

/-- One bar of the signal DataFrame consumed by Backtester._execute_trades:
timestamp, close price and the strategy signal. -/
structure Bar where
  t : ℕ
  close : ℚ
  signal : SignalType
deriving DecidableEq

/-- The slippage-adjusted execution price computed at the top of the loop
body in Backtester._execute_trades: close×(1+slippage) for BUY,
close×(1−slippage) for SELL, the raw close otherwise. -/
def executionPrice (slippage : ℚ) (b : Bar) : ℚ :=
  match b.signal with
  | .BUY => b.close * (1 + slippage)
  | .SELL => b.close * (1 - slippage)
  | .HOLD => b.close

/-- The signal-processing part of the loop body in
Backtester._execute_trades: on BUY close an open SHORT at the execution
price, then open a LONG if no position is open; on SELL close an open LONG
at the execution price, then open a SHORT if allowed and no position is
open; on HOLD do nothing. -/
def processSignal (slippage : ℚ) (allowShort : Bool) (s : Portfolio) (b : Bar) :
    Portfolio :=
  let execution_price := executionPrice slippage b
  match b.signal with
  | .BUY =>
    let sc :=
      match s.current_position with
      | some pos =>
        if pos.position_type = PositionType.SHORT then (s.close_position b.t execution_price).2
        else s
      | none => s
    if sc.current_position.isNone then
      (sc.open_position b.t execution_price .LONG none).2
    else sc
  | .SELL =>
    let sc :=
      match s.current_position with
      | some pos =>
        if pos.position_type = PositionType.LONG then (s.close_position b.t execution_price).2
        else s
      | none => s
    if sc.current_position.isNone && allowShort then
      (sc.open_position b.t execution_price .SHORT none).2
    else sc
  | .HOLD => s

/-- One iteration of the loop in Backtester._execute_trades: process the
signal at the slippage-adjusted execution price, then call update with
the unmodified close. -/
def stepBar (slippage : ℚ) (allowShort : Bool) (s : Portfolio) (b : Bar) :
    Portfolio :=
  (processSignal slippage allowShort s b).update b.t b.close

/-- Backtester._execute_trades: fold the per-bar step over the bar
sequence, then force-close any remaining position at the last bar's raw
close price and timestamp. -/
def executeTrades (slippage : ℚ) (allowShort : Bool) (s : Portfolio)
    (bars : List Bar) : Portfolio :=
  let s1 := bars.foldl (stepBar slippage allowShort) s
  match s1.current_position, bars.getLast? with
  | some _, some b => (s1.close_position b.t b.close).2
  | _, _ => s1

/-- Per-bar simple returns: pandas Series.pct_change().dropna(), i.e. the
list of (cur − prev)/prev over consecutive pairs. -/
def pctChange (l : List ℚ) : List ℚ :=
  List.zipWith (fun prev cur => (cur - prev) / prev) l l.tail

/-- pandas Series.mean(): NaN (modelled as none) on an empty series. -/
def pandasMean (l : List ℚ) : Option ℚ :=
  if l.isEmpty then none else some (l.sum / (l.length : ℚ))

/-- Sample variance with ddof = 1, the quantity under pandas Series.std(). -/
def sampleVar (l : List ℚ) : ℚ :=
  if l.length < 2 then 0
  else (l.map (fun x => (x - l.sum / (l.length : ℚ)) ^ 2)).sum / ((l.length : ℚ) - 1)

/-- pandas Series.std() (ddof = 1): NaN (none) when fewer than two samples. -/
noncomputable def pandasStd (l : List ℚ) : Option ℝ :=
  if l.length < 2 then none else some (Real.sqrt (sampleVar l))

/-- Minimum of a list (Series.min()); 0 on an empty list (unused case). -/
def listMin : List ℚ → ℚ
  | [] => 0
  | x :: xs => xs.foldl min x

/-- Maximum of a list (Series.max()); 0 on an empty list (unused case). -/
def listMax : List ℚ → ℚ
  | [] => 0
  | x :: xs => xs.foldl max x

/-- Drawdown series relative to a running maximum seeded with m:
each element is (x − m')/m' × 100 with m' the updated running maximum. -/
def ddAux (m : ℚ) : List ℚ → List ℚ
  | [] => []
  | x :: xs => ((x - max m x) / max m x) * 100 :: ddAux (max m x) xs

/-- Drawdown series of an equity curve: (equity − running_max)/running_max × 100,
with running_max = equity.expanding().max(). -/
def drawdowns : List ℚ → List ℚ
  | [] => []
  | x :: xs => ddAux x (x :: xs)

/-- Maximum drawdown (Backtester._calculate_max_drawdown and
PerformanceMetrics._calculate_max_drawdown_value): 0 on an empty curve,
otherwise |min of the drawdown series|. -/
def maxDrawdown (curve : List ℚ) : ℚ :=
  match curve with
  | [] => 0
  | x :: xs => |listMin (drawdowns (x :: xs))|

/-- Length of the longest run of `true` entries — models the
groupby/cumsum computation of the maximal strictly-negative-drawdown
stretch in _calculate_drawdown_metrics. -/
def longestRun (l : List Bool) : ℕ :=
  (l.foldl (fun acc b => if b then (max acc.1 (acc.2 + 1), acc.2 + 1) else (acc.1, 0))
    (0, 0)).1

/-- np.percentile with the default linear interpolation. -/
def percentile (l : List ℚ) (p : ℚ) : ℚ :=
  let sorted := l.insertionSort (· ≤ ·)
  let n := l.length
  if n = 0 then 0
  else
    let h := ((n : ℚ) - 1) * p / 100
    let i : ℕ := ⌊h⌋₊
    let lo := sorted.getD i 0
    let hi := sorted.getD (min (i + 1) (n - 1)) 0
    lo + (h - (i : ℚ)) * (hi - lo)

/-- np.sign on a rational. -/
def signQ (x : ℚ) : ℤ :=
  if 0 < x then 1 else if x < 0 then -1 else 0

/-- PerformanceMetrics._max_consecutive: longest run of entries equal to v. -/
def maxConsecutive (l : List ℤ) (v : ℤ) : ℕ :=
  (l.foldl (fun acc y => if y = v then (max acc.1 (acc.2 + 1), acc.2 + 1) else (acc.1, 0))
    (0, 0)).1

/-- The dictionary returned by PerformanceMetrics._calculate_return_metrics
when the curve is non-empty; fields that pandas produces as NaN on an
empty return series are Options. -/
structure ReturnMetrics where
  total_return_pct : ℚ
  cagr : ℝ
  average_daily_return : Option ℚ
  return_volatility : Option ℝ

/-- PerformanceMetrics._calculate_return_metrics: {} (none) exactly when
the equity curve is empty. -/
noncomputable def calculateReturnMetrics (curve : List ℚ)
    (initial_capital : ℚ) : Option ReturnMetrics :=
  match curve with
  | [] => none
  | x :: xs =>
    let equity := x :: xs
    let final_equity := equity.getLast (List.cons_ne_nil x xs)
    let total_return := ((final_equity - initial_capital) / initial_capital) * 100
    let returns := pctChange equity
    let years : ℚ := (equity.length : ℚ) / 525600
    let cagr : ℝ :=
      if 0 < years then
        (((final_equity / initial_capital : ℚ) : ℝ) ^ ((1 / years : ℚ) : ℝ) - 1) * 100
      else 0
    some
      { total_return_pct := total_return
        cagr := cagr
        average_daily_return := (pandasMean returns).map (· * 1440)
        return_volatility := (pandasStd returns).map (· * Real.sqrt 1440) }

/-- The dictionary returned by PerformanceMetrics._calculate_risk_metrics
when the curve has at least two samples. -/
structure RiskMetrics where
  sharpe : ℝ
  sortino : ℝ
  calmar : ℝ
  var_95 : ℚ
  cvar_95 : Option ℚ

/-- PerformanceMetrics._calculate_risk_metrics: {} (none) exactly when the
equity curve is empty or has fewer than two samples.  The pandas guards
`std() > 0` evaluate NaN > 0 to False, modelled through sampleVar being 0
for series shorter than two. -/
noncomputable def calculateRiskMetrics (curve : List ℚ)
    (risk_free_rate : ℚ) : Option RiskMetrics :=
  if curve.length < 2 then none
  else
    let returns := pctChange curve
    let excess_mean : ℚ := returns.sum / (returns.length : ℚ) - risk_free_rate / 525600
    let sharpe : ℝ :=
      if 0 < sampleVar returns then
        Real.sqrt 525600 * (excess_mean : ℝ) / Real.sqrt (sampleVar returns)
      else 0
    let downside := returns.filter (fun r => decide (r < 0))
    let sortino : ℝ :=
      if 0 < downside.length ∧ 0 < sampleVar downside then
        Real.sqrt 525600 * (excess_mean : ℝ) / Real.sqrt (sampleVar downside)
      else 0
    let max_dd := maxDrawdown curve
    let years : ℚ := (curve.length : ℚ) / 525600
    let cagr : ℝ :=
      if 0 < years then
        (((curve.getLastD 0 / curve.headD 0 : ℚ) : ℝ) ^ ((1 / years : ℚ) : ℝ) - 1) * 100
      else 0
    let v95 := percentile returns 5
    some
      { sharpe := sharpe
        sortino := sortino
        calmar := if 0 < max_dd then cagr / (max_dd : ℝ) else 0
        var_95 := v95 * 100
        cvar_95 := (pandasMean (returns.filter (fun r => decide (r ≤ v95)))).map (· * 100) }

/-- The dictionary returned by PerformanceMetrics._calculate_drawdown_metrics
when the curve is non-empty. -/
structure DrawdownMetrics where
  max_drawdown_pct : ℚ
  max_drawdown_duration_bars : ℕ
  current_drawdown_pct : ℚ
  recovery_factor : ℚ
deriving DecidableEq

/-- PerformanceMetrics._calculate_drawdown_metrics: {} (none) exactly when
the equity curve is empty. -/
def calculateDrawdownMetrics (curve : List ℚ) : Option DrawdownMetrics :=
  match curve with
  | [] => none
  | x :: xs =>
    let equity := x :: xs
    let dd := drawdowns equity
    let max_dd := |listMin dd|
    let last := equity.getLast (List.cons_ne_nil x xs)
    let total_return := ((last - x) / x) * 100
    some
      { max_drawdown_pct := max_dd
        max_drawdown_duration_bars := longestRun (dd.map (fun v => decide (v < 0)))
        current_drawdown_pct := |dd.getLastD 0|
        recovery_factor := if 0 < max_dd then total_return / max_dd else 0 }

/-- Gross profit in _calculate_trade_metrics: sum of pnl over closed
trades with pnl > 0. -/
def metricsGrossProfit (trades : List Trade) : ℚ :=
  (((closedTrades trades).filter (fun tr => decide (tr.pnl > 0))).map Trade.pnl).sum

/-- Gross loss in _calculate_trade_metrics: |sum of pnl over closed
trades with pnl ≤ 0|. -/
def metricsGrossLoss (trades : List Trade) : ℚ :=
  |(((closedTrades trades).filter (fun tr => decide (tr.pnl ≤ 0))).map Trade.pnl).sum|

/-- Profit factor as computed in _calculate_trade_metrics:
gross_profit / gross_loss if gross_loss > 0 else float('inf'). -/
def metricsProfitFactor (trades : List Trade) : WithTop ℚ :=
  if 0 < metricsGrossLoss trades then
    ((metricsGrossProfit trades / metricsGrossLoss trades : ℚ) : WithTop ℚ)
  else ⊤

/-- The dictionary returned by PerformanceMetrics._calculate_trade_metrics
when there is at least one closed trade. -/
structure TradeMetrics where
  total_trades : ℕ
  winning_trades : ℕ
  losing_trades : ℕ
  win_rate : ℚ
  average_win : ℚ
  average_loss : ℚ
  profit_factor : WithTop ℚ
  expectancy : ℚ
  max_consecutive_wins : ℕ
  max_consecutive_losses : ℕ
  best_trade : ℚ
  worst_trade : ℚ
  avg_trade_duration_minutes : ℚ
deriving DecidableEq

/-- PerformanceMetrics._calculate_trade_metrics: {} (none) exactly when
there are no CLOSED trades in the trade log. -/
def calculateTradeMetrics (trades : List Trade) : Option TradeMetrics :=
  match closedTrades trades with
  | [] => none
  | c :: cs =>
    let closed := c :: cs
    let wins := closed.filter (fun tr => decide (tr.pnl > 0))
    let losses := closed.filter (fun tr => decide (tr.pnl ≤ 0))
    let total_trades := closed.length
    let winning := wins.length
    let win_rate : ℚ :=
      if 0 < total_trades then ((winning : ℚ) / (total_trades : ℚ)) * 100 else 0
    let avg_win : ℚ := (pandasMean (wins.map Trade.pnl)).getD 0
    let avg_loss : ℚ := (pandasMean (losses.map Trade.pnl)).getD 0
    let signs := closed.map (fun tr => signQ tr.pnl)
    let durations := closed.map
      (fun tr => (((tr.exit_time.getD 0 : ℤ) - (tr.entry_time : ℤ) : ℤ) : ℚ) / 60)
    some
      { total_trades := total_trades
        winning_trades := winning
        losing_trades := losses.length
        win_rate := win_rate
        average_win := avg_win
        average_loss := avg_loss
        profit_factor := metricsProfitFactor trades
        expectancy := (win_rate / 100) * avg_win - ((100 - win_rate) / 100) * |avg_loss|
        max_consecutive_wins := maxConsecutive signs 1
        max_consecutive_losses := maxConsecutive signs (-1)
        best_trade := listMax (closed.map Trade.pnl)
        worst_trade := listMin (closed.map Trade.pnl)
        avg_trade_duration_minutes := (pandasMean durations).getD 0 }

/-- Number of trades with status OPEN in the trade log
(length of Portfolio.get_open_trades). -/
def openTradeCount (s : Portfolio) : ℕ :=
  (s.trades.filter (fun tr => decide (tr.status = .OPEN))).length

/-- Run-time invariant of the portfolio maintained by the execution loop:
when no position is open every logged trade is CLOSED; when a position is
open the log is a list of CLOSED trades followed by exactly one OPEN trade. -/
def PortfolioInv (s : Portfolio) : Prop :=
  match s.current_position with
  | none => ∀ tr ∈ s.trades, tr.status = TradeStatus.CLOSED
  | some _ => ∃ l tr0, s.trades = l ++ [tr0] ∧
      (∀ tr ∈ l, tr.status = TradeStatus.CLOSED) ∧ tr0.status = TradeStatus.OPEN

/-- The state of a concrete one-bar execution run (a BUY at close 10 from
100 starting cash, zero commission and slippage), used to witness the
trade-log invariants: the bar opens a LONG position. -/
def c7RunState : Portfolio :=
  List.foldl (stepBar 0 false) (mkPortfolio 100 0 1 false)
    [⟨0, 10, SignalType.BUY⟩]

/-- A closed winning trade with pnl 5. -/
def trWin : Trade := ⟨0, some 1, .LONG, 0, 0, 0, 0, 5, 0, .CLOSED⟩

/-- A closed break-even trade with pnl 0 (a losing trade for the
pnl > 0 win test, but contributing nothing to gross loss). -/
def trZero : Trade := ⟨0, some 1, .LONG, 0, 0, 0, 0, 0, 0, .CLOSED⟩

/-- A closed losing trade with pnl −2. -/
def trLoss : Trade := ⟨0, some 1, .LONG, 0, 0, 0, 0, -2, 0, .CLOSED⟩

/-- An OPEN trade for quantity 1 entered at price 10. -/
def trOpenEx : Trade := ⟨0, none, .LONG, 10, 0, 1, 0, 0, 0, .OPEN⟩

/-- An open LONG position, quantity 1, entered (and last marked) at 10. -/
def posLongEx : Position := ⟨.LONG, 0, 10, 1, 10⟩

/-- Concrete portfolio holding the LONG position with zero cash. -/
def c1Portfolio : Portfolio :=
  { mkPortfolio 10000 0 1 false with
    cash := 0
    current_position := some posLongEx
    trades := [trOpenEx] }

/-- Concrete portfolio with 10 cash and zero commission. -/
def c2Portfolio : Portfolio := mkPortfolio 10 0 1 false

/-- Concrete portfolio with 10000 cash and 0.1% commission. -/
def c9Portfolio : Portfolio := mkPortfolio 10000 (1 / 1000) 1 false

/-- Concrete portfolio in the anomalous shape of claim C10: a position is
open but the trade log is empty. -/
def c10Portfolio : Portfolio :=
  { mkPortfolio 100 0 1 false with
    cash := 50
    current_position := some posLongEx }

/-- C1: the claim says update on an open LONG position of quantity q sets
equity to cash + q×price.  Evaluating Portfolio.update at a concrete open
LONG position (cash 0, quantity 1, entry 10, price 20) shows the code
instead sets equity to cash + unrealized_pnl + q×price = 30, not the
claimed cash + q×price = 20, while the (time, equity) sample is appended
as described. -/
theorem c1_update_equity_failing_input :
    (c1Portfolio.update 1 20).equity = 30 ∧
    (c1Portfolio.update 1 20).equity ≠ c1Portfolio.cash + posLongEx.quantity * 20 ∧
    (c1Portfolio.update 1 20).equity_curve = [30] ∧
    (c1Portfolio.update 1 20).timestamps = [1] ∧
    c1Portfolio.cash + posLongEx.quantity * 20 = 20 := by
  refine ⟨?_, ?_, ?_, ?_, ?_⟩ <;>
    simp [Portfolio.update, c1Portfolio, posLongEx, Position.unrealized_pnl,
      mkPortfolio] <;> norm_num

/-- C2: open_position with an explicit quantity whose cost
quantity × price + commission exceeds the available cash returns False and
leaves the entire portfolio state unchanged. -/
theorem c2_insufficient_funds_no_state_change (s : Portfolio) (t : ℕ)
    (price : ℚ) (ptype : PositionType) (q : ℚ)
    (h : q * price + q * price * s.commission_rate > s.cash) :
    s.open_position t price ptype (some q) = (false, s) := by
  unfold Portfolio.open_position
  split
  · rfl
  · split
    · rfl
    · split
      · next heq => cases heq
      · next q1 heq =>
        cases heq
        simp only [if_pos h]

/-- C2 witness: a concrete declined open (cash 10, cost 100) returns False
with the state unchanged. -/
theorem c2_insufficient_funds_witness :
    c2Portfolio.open_position 0 100 PositionType.LONG (some 1) =
      (false, c2Portfolio) :=
  c2_insufficient_funds_no_state_change c2Portfolio 0 100 PositionType.LONG 1
    (by norm_num [c2Portfolio, mkPortfolio])

/-- C10: when a position is open but the trade log is empty or its most
recent entry is not OPEN, close_position still returns True and clears the
position, while crediting no cash and mutating no trade. -/
theorem c10_close_without_open_log_entry (s : Portfolio) (t : ℕ) (price : ℚ)
    (pos : Position) (hpos : s.current_position = some pos)
    (hlast : ∀ tr, s.trades.getLast? = some tr → tr.status ≠ TradeStatus.OPEN) :
    s.close_position t price = (true, { s with current_position := none }) := by
  unfold Portfolio.close_position
  rw [hpos]
  cases hl : s.trades.getLast? with
  | none => rfl
  | some tr =>
    have hne := hlast tr hl
    simp [hne]

/-- C10 witness: the concrete portfolio with an open position and an empty
trade log is closed with True, a cleared position and no other change. -/
theorem c10_close_witness :
    c10Portfolio.close_position 1 20 =
      (true, { c10Portfolio with current_position := none }) :=
  c10_close_without_open_log_entry c10Portfolio 1 20 posLongEx rfl
    (by intro tr h; simp [c10Portfolio, mkPortfolio] at h)

theorem update_cash (s : Portfolio) (t : ℕ) (p : ℚ) : (s.update t p).cash = s.cash := by
  unfold Portfolio.update; split <;> rfl

theorem update_trades (s : Portfolio) (t : ℕ) (p : ℚ) :
    (s.update t p).trades = s.trades := by
  unfold Portfolio.update; split <;> rfl

theorem update_timestamps (s : Portfolio) (t : ℕ) (p : ℚ) :
    (s.update t p).timestamps = s.timestamps ++ [t] := by
  unfold Portfolio.update; split <;> rfl

theorem update_equity_curve (s : Portfolio) (t : ℕ) (p : ℚ) :
    (s.update t p).equity_curve = s.equity_curve ++ [(s.update t p).equity] := by
  unfold Portfolio.update; split <;> rfl

theorem open_position_timestamps (s : Portfolio) (t : ℕ) (p : ℚ)
    (ty : PositionType) (q : Option ℚ) :
    (s.open_position t p ty q).2.timestamps = s.timestamps := by
  unfold Portfolio.open_position
  split
  · rfl
  · split
    · rfl
    · split <;> (dsimp only; split <;> rfl)

theorem open_position_equity_curve (s : Portfolio) (t : ℕ) (p : ℚ)
    (ty : PositionType) (q : Option ℚ) :
    (s.open_position t p ty q).2.equity_curve = s.equity_curve := by
  unfold Portfolio.open_position
  split
  · rfl
  · split
    · rfl
    · split <;> (dsimp only; split <;> rfl)

theorem close_position_timestamps (s : Portfolio) (t : ℕ) (p : ℚ) :
    (s.close_position t p).2.timestamps = s.timestamps := by
  unfold Portfolio.close_position
  split
  · rfl
  · split
    · split <;> rfl
    · rfl

theorem close_position_equity_curve (s : Portfolio) (t : ℕ) (p : ℚ) :
    (s.close_position t p).2.equity_curve = s.equity_curve := by
  unfold Portfolio.close_position
  split
  · rfl
  · split
    · split <;> rfl
    · rfl

theorem processSignal_timestamps (sl : ℚ) (ash : Bool) (s : Portfolio) (b : Bar) :
    (processSignal sl ash s b).timestamps = s.timestamps := by
  unfold processSignal
  split
  · split
    · dsimp only
      split
      · split
        · rw [open_position_timestamps, close_position_timestamps]
        · rw [close_position_timestamps]
      · split
        · rw [open_position_timestamps]
        · rfl
    · dsimp only
      split
      · rw [open_position_timestamps]
      · rfl
  · split
    · dsimp only
      split
      · split
        · rw [open_position_timestamps, close_position_timestamps]
        · rw [close_position_timestamps]
      · split
        · rw [open_position_timestamps]
        · rfl
    · dsimp only
      split
      · rw [open_position_timestamps]
      · rfl
  · rfl

theorem processSignal_equity_curve (sl : ℚ) (ash : Bool) (s : Portfolio) (b : Bar) :
    (processSignal sl ash s b).equity_curve = s.equity_curve := by
  unfold processSignal
  split
  · split
    · dsimp only
      split
      · split
        · rw [open_position_equity_curve, close_position_equity_curve]
        · rw [close_position_equity_curve]
      · split
        · rw [open_position_equity_curve]
        · rfl
    · dsimp only
      split
      · rw [open_position_equity_curve]
      · rfl
  · split
    · dsimp only
      split
      · split
        · rw [open_position_equity_curve, close_position_equity_curve]
        · rw [close_position_equity_curve]
      · split
        · rw [open_position_equity_curve]
        · rfl
    · dsimp only
      split
      · rw [open_position_equity_curve]
      · rfl
  · rfl

theorem stepBar_timestamps (sl : ℚ) (ash : Bool) (s : Portfolio) (b : Bar) :
    (stepBar sl ash s b).timestamps = s.timestamps ++ [b.t] := by
  unfold stepBar
  rw [update_timestamps, processSignal_timestamps]

theorem stepBar_equity_curve (sl : ℚ) (ash : Bool) (s : Portfolio) (b : Bar) :
    (stepBar sl ash s b).equity_curve
      = s.equity_curve ++ [(stepBar sl ash s b).equity] := by
  unfold stepBar
  rw [update_equity_curve, processSignal_equity_curve]

theorem stepBar_equity_curve_length (sl : ℚ) (ash : Bool) (s : Portfolio) (b : Bar) :
    (stepBar sl ash s b).equity_curve.length = s.equity_curve.length + 1 := by
  rw [stepBar_equity_curve]
  simp

theorem foldl_stepBar_timestamps (sl : ℚ) (ash : Bool) (bars : List Bar) :
    ∀ s : Portfolio,
      (bars.foldl (stepBar sl ash) s).timestamps = s.timestamps ++ bars.map Bar.t := by
  induction bars with
  | nil => intro s; simp
  | cons b bs ih =>
    intro s
    simp only [List.foldl_cons, List.map_cons]
    rw [ih, stepBar_timestamps]
    simp [List.append_assoc]

theorem foldl_stepBar_equity_curve_length (sl : ℚ) (ash : Bool) (bars : List Bar) :
    ∀ s : Portfolio,
      (bars.foldl (stepBar sl ash) s).equity_curve.length
        = s.equity_curve.length + bars.length := by
  induction bars with
  | nil => intro s; simp
  | cons b bs ih =>
    intro s
    simp only [List.foldl_cons, List.length_cons]
    rw [ih, stepBar_equity_curve_length]
    omega

theorem executeTrades_timestamps (sl : ℚ) (ash : Bool) (s : Portfolio)
    (bars : List Bar) :
    (executeTrades sl ash s bars).timestamps = s.timestamps ++ bars.map Bar.t := by
  unfold executeTrades
  dsimp only
  split
  · rw [close_position_timestamps, foldl_stepBar_timestamps]
  · rw [foldl_stepBar_timestamps]

theorem executeTrades_equity_curve_length (sl : ℚ) (ash : Bool) (s : Portfolio)
    (bars : List Bar) :
    (executeTrades sl ash s bars).equity_curve.length
      = s.equity_curve.length + bars.length := by
  unfold executeTrades
  dsimp only
  split
  · rw [close_position_equity_curve, foldl_stepBar_equity_curve_length]
  · rw [foldl_stepBar_equity_curve_length]

/-- C6: starting from a fresh portfolio, the execution loop produces an
equity curve with exactly one sample per input bar, whose timestamps are
the bar timestamps one-to-one in order. -/
theorem c6_equity_curve_one_sample_per_bar (ic cr ps sl : ℚ) (ash : Bool)
    (bars : List Bar) :
    (executeTrades sl ash (mkPortfolio ic cr ps ash) bars).timestamps
        = bars.map Bar.t ∧
    (executeTrades sl ash (mkPortfolio ic cr ps ash) bars).equity_curve.length
        = bars.length := by
  constructor
  · rw [executeTrades_timestamps]
    simp [mkPortfolio]
  · rw [executeTrades_equity_curve_length]
    simp [mkPortfolio]

theorem grossLoss_nonneg (trades : List Trade) : 0 ≤ grossLoss trades := by
  unfold grossLoss; exact abs_nonneg _

theorem metricsGrossLoss_nonneg (trades : List Trade) : 0 ≤ metricsGrossLoss trades := by
  unfold metricsGrossLoss; exact abs_nonneg _

/-- C4 counterexample: with closed trades of pnl 5 and pnl 0, the
portfolio profit factor is +∞ although a losing trade exists (so "+∞
exactly when there are wins and zero losing trades" fails); and with a
single closed pnl-0 trade, the analytics profit factor is +∞ although
there are no wins (so "0 when there are no wins" fails). -/
theorem c4_profit_factor_counterexample :
    (profit_factor [trWin, trZero] = ⊤ ∧ losingTrades [trWin, trZero] ≠ 0) ∧
    (metricsProfitFactor [trZero] = ⊤ ∧ winningTrades [trZero] = 0) := by
  refine ⟨⟨?_, ?_⟩, ⟨?_, ?_⟩⟩
  · simp [profit_factor, grossLoss, grossProfit, closedTrades, Trade.is_winner,
      trWin, trZero]
  · simp [losingTrades, closedTrades, Trade.is_winner, trWin, trZero]
  · simp [metricsProfitFactor, metricsGrossLoss, closedTrades, trZero]
  · simp [winningTrades, closedTrades, Trade.is_winner, trZero]

/-- C4 amended: the profit factor equals gross_profit / gross_loss whenever
gross_loss ≠ 0.  The portfolio implementation is +∞ exactly when
gross_loss = 0 and gross_profit > 0 (zero-pnl losing trades contribute
nothing to gross loss, so +∞ can coexist with losing trades), and is 0
whenever there are no winning trades.  The analytics implementation is +∞
exactly when gross_loss = 0, even with no wins. -/
theorem c4_profit_factor_amended (trades : List Trade) :
    (grossLoss trades ≠ 0 →
      profit_factor trades = ((grossProfit trades / grossLoss trades : ℚ) : WithTop ℚ)) ∧
    (profit_factor trades = ⊤ ↔ grossLoss trades = 0 ∧ 0 < grossProfit trades) ∧
    (winningTrades trades = 0 → profit_factor trades = 0) ∧
    (metricsProfitFactor trades = ⊤ ↔ metricsGrossLoss trades = 0) ∧
    (metricsGrossLoss trades ≠ 0 →
      metricsProfitFactor trades
        = ((metricsGrossProfit trades / metricsGrossLoss trades : ℚ) : WithTop ℚ)) := by
  refine ⟨?_, ?_, ?_, ?_, ?_⟩
  · intro h; simp [profit_factor, h]
  · unfold profit_factor
    split
    · next h =>
      split
      · next hgp => simp [h, hgp]
      · next hgp => simp [h, hgp, WithTop.zero_ne_top]
    · next h => simp [WithTop.coe_ne_top, h]
  · intro hw
    have hgp : grossProfit trades = 0 := by
      unfold winningTrades at hw
      rw [List.length_eq_zero] at hw
      unfold grossProfit
      rw [hw]
      simp
    unfold profit_factor
    split
    · simp [hgp]
    · simp [hgp]
  · unfold metricsProfitFactor
    split
    · next h =>
      constructor
      · intro hc; exact absurd hc (WithTop.coe_ne_top)
      · intro h0; rw [h0] at h; exact absurd h (lt_irrefl 0)
    · next h =>
      have h0 : metricsGrossLoss trades = 0 :=
        le_antisymm (not_lt.mp h) (metricsGrossLoss_nonneg trades)
      simp [h0]
  · intro h
    have hlt : 0 < metricsGrossLoss trades :=
      lt_of_le_of_ne (metricsGrossLoss_nonneg trades) (Ne.symm h)
    simp [metricsProfitFactor, hlt]

/-- C4 amended witness: evaluated at a single closed losing trade of
pnl −2, both implementations give gross_profit / gross_loss, and the
portfolio profit factor is 0 (no winners). -/
theorem c4_profit_factor_amended_witness :
    profit_factor [trLoss] = ((grossProfit [trLoss] / grossLoss [trLoss] : ℚ) : WithTop ℚ) ∧
    profit_factor [trLoss] = 0 ∧
    metricsProfitFactor [trLoss]
      = ((metricsGrossProfit [trLoss] / metricsGrossLoss [trLoss] : ℚ) : WithTop ℚ) := by
  have h := c4_profit_factor_amended [trLoss]
  refine ⟨h.1 ?_, h.2.2.1 ?_, h.2.2.2.2 ?_⟩
  · norm_num [grossLoss, closedTrades, Trade.is_winner, trLoss]
  · simp [winningTrades, closedTrades, Trade.is_winner, trLoss]
  · norm_num [metricsGrossLoss, closedTrades, trLoss]

theorem close_trade_status (tr : Trade) (t : ℕ) (p c : ℚ) :
    (tr.close_trade t p c).status = TradeStatus.CLOSED := rfl

theorem inv_mkPortfolio (ic cr ps : ℚ) (ash : Bool) :
    PortfolioInv (mkPortfolio ic cr ps ash) := by
  simp [PortfolioInv, mkPortfolio]

theorem inv_all_closed (s : Portfolio) (h : PortfolioInv s)
    (hp : s.current_position = none) :
    ∀ tr ∈ s.trades, tr.status = TradeStatus.CLOSED := by
  unfold PortfolioInv at h
  rw [hp] at h
  exact h

theorem inv_last_open (s : Portfolio) (h : PortfolioInv s) (pos : Position)
    (hp : s.current_position = some pos) :
    ∃ l tr0, s.trades = l ++ [tr0] ∧
      (∀ tr ∈ l, tr.status = TradeStatus.CLOSED) ∧
      tr0.status = TradeStatus.OPEN := by
  unfold PortfolioInv at h
  rw [hp] at h
  exact h

theorem open_position_inv (s : Portfolio) (t : ℕ) (p : ℚ) (ty : PositionType)
    (q : Option ℚ) (h : PortfolioInv s) :
    PortfolioInv (s.open_position t p ty q).2 := by
  unfold Portfolio.open_position
  split
  · exact h
  · next hns =>
    have hnone : s.current_position = none := by
      cases hcp : s.current_position
      · rfl
      · rw [hcp] at hns; simp at hns
    have hall := inv_all_closed s h hnone
    split
    · exact h
    · split <;> (dsimp only; split) <;>
        first
          | exact h
          | exact ⟨s.trades, _, rfl, hall, rfl⟩

theorem close_position_inv (s : Portfolio) (t : ℕ) (p : ℚ)
    (h : PortfolioInv s) : PortfolioInv (s.close_position t p).2 := by
  unfold Portfolio.close_position
  split
  · exact h
  · next pos hp =>
    obtain ⟨l, tr0, htr, hl, ho⟩ := inv_last_open s h pos hp
    have hlast : s.trades.getLast? = some tr0 := by rw [htr]; simp
    split
    · next tr heq =>
      rw [hlast] at heq
      cases heq
      rw [if_pos ho]
      dsimp only
      show ∀ tr1 ∈ s.trades.dropLast ++ [tr0.close_trade t p _],
        tr1.status = TradeStatus.CLOSED
      intro tr1 h1
      rw [htr, List.dropLast_concat] at h1
      rcases List.mem_append.mp h1 with hm | hm
      · exact hl tr1 hm
      · rw [List.mem_singleton.mp hm]; rfl
    · next heq => rw [hlast] at heq; cases heq

theorem update_inv (s : Portfolio) (t : ℕ) (p : ℚ)
    (h : PortfolioInv s) : PortfolioInv (s.update t p) := by
  unfold Portfolio.update
  split
  · next pos hp =>
    obtain ⟨l, tr0, htr, hl, ho⟩ := inv_last_open s h pos hp
    exact ⟨l, tr0, htr, hl, ho⟩
  · next hp =>
    unfold PortfolioInv
    dsimp only
    rw [hp]
    exact inv_all_closed s h hp

theorem processSignal_inv (sl : ℚ) (ash : Bool) (s : Portfolio) (b : Bar)
    (h : PortfolioInv s) : PortfolioInv (processSignal sl ash s b) := by
  unfold processSignal
  split
  · split
    · dsimp only
      split
      · split
        · exact open_position_inv _ _ _ _ _ (close_position_inv _ _ _ h)
        · exact close_position_inv _ _ _ h
      · split
        · exact open_position_inv _ _ _ _ _ h
        · exact h
    · dsimp only
      split
      · exact open_position_inv _ _ _ _ _ h
      · exact h
  · split
    · dsimp only
      split
      · split
        · exact open_position_inv _ _ _ _ _ (close_position_inv _ _ _ h)
        · exact close_position_inv _ _ _ h
      · split
        · exact open_position_inv _ _ _ _ _ h
        · exact h
    · dsimp only
      split
      · exact open_position_inv _ _ _ _ _ h
      · exact h
  · exact h

theorem stepBar_inv (sl : ℚ) (ash : Bool) (s : Portfolio) (b : Bar)
    (h : PortfolioInv s) : PortfolioInv (stepBar sl ash s b) :=
  update_inv _ _ _ (processSignal_inv sl ash s b h)

theorem foldl_stepBar_inv (sl : ℚ) (ash : Bool) (bars : List Bar) :
    ∀ s : Portfolio, PortfolioInv s →
      PortfolioInv (bars.foldl (stepBar sl ash) s) := by
  induction bars with
  | nil => intro s h; exact h
  | cons b bs ih => intro s h; exact ih _ (stepBar_inv sl ash s b h)

theorem openCount_of_inv (s : Portfolio) (h : PortfolioInv s) :
    openTradeCount s ≤ 1 ∧
    (openTradeCount s = 1 ↔ s.current_position.isSome = true) := by
  unfold openTradeCount
  cases hp : s.current_position with
  | none =>
    have hall := inv_all_closed s h hp
    have hnil : s.trades.filter (fun tr => decide (tr.status = TradeStatus.OPEN)) = [] := by
      rw [List.filter_eq_nil_iff]
      intro a ha
      simp [hall a ha]
    simp [hnil, hp]
  | some pos =>
    obtain ⟨l, tr0, htr, hl, ho⟩ := inv_last_open s h pos hp
    have h1 : l.filter (fun tr => decide (tr.status = TradeStatus.OPEN)) = [] := by
      rw [List.filter_eq_nil_iff]
      intro a ha
      simp [hl a ha]
    rw [htr, List.filter_append, h1]
    simp [ho, hp]

theorem close_position_eq (s : Portfolio) (t : ℕ) (p : ℚ) (pos : Position)
    (tr0 : Trade) (hps : s.current_position = some pos)
    (hlast : s.trades.getLast? = some tr0) (ho : tr0.status = TradeStatus.OPEN) :
    s.close_position t p =
      (true,
        { s with
          trades := s.trades.dropLast ++
            [tr0.close_trade t p (pos.quantity * p * s.commission_rate)]
          cash :=
            match pos.position_type with
            | .LONG => s.cash + pos.quantity * p - pos.quantity * p * s.commission_rate
            | .SHORT =>
              s.cash + pos.quantity * pos.entry_price +
                (pos.entry_price - p) * pos.quantity - pos.quantity * p * s.commission_rate
          current_position := none }) := by
  unfold Portfolio.close_position
  rw [hps]
  dsimp only
  rw [hlast]
  dsimp only
  rw [if_pos ho]

theorem open_position_isSome (s : Portfolio) (t : ℕ) (p : ℚ) (ty : PositionType)
    (q : Option ℚ) (h : s.current_position.isSome = true) :
    s.open_position t p ty q = (false, s) := by
  unfold Portfolio.open_position
  rw [if_pos h]

theorem close_position_of_inv (s : Portfolio) (t : ℕ) (p : ℚ) (h : PortfolioInv s)
    (hp : s.current_position.isSome = true) :
    (s.close_position t p).2.trades.dropLast = s.trades.dropLast ∧
    (s.close_position t p).2.trades.length = s.trades.length ∧
    ((s.close_position t p).2.trades.getLast?.map Trade.status)
      = some TradeStatus.CLOSED ∧
    (s.close_position t p).2.current_position = none := by
  obtain ⟨pos, hps⟩ := Option.isSome_iff_exists.mp hp
  obtain ⟨l, tr0, htr, hl, ho⟩ := inv_last_open s h pos hps
  have hlast : s.trades.getLast? = some tr0 := by rw [htr]; simp
  have hne : s.trades ≠ [] := by
    intro h0; rw [h0] at hlast; cases hlast
  rw [close_position_eq s t p pos tr0 hps hlast ho]
  refine ⟨?_, ?_, ?_, ?_⟩
  · exact List.dropLast_concat
  · have := List.length_pos.mpr hne
    simp [List.length_dropLast]
    omega
  · simp [close_trade_status]
  · rfl

/-- C7: at every prefix of an execution-loop run from a fresh portfolio,
the trade log holds at most one OPEN trade, exactly one iff a position is
open; a close_position call at such a state mutates exactly the most
recent log entry, marking it CLOSED, and clears the position; and a new
open is declined whenever a position is already open. -/
theorem c7_single_open_trade (ic cr ps sl : ℚ) (ash : Bool) (pfx : List Bar)
    (s : Portfolio)
    (hs : s = List.foldl (stepBar sl ash) (mkPortfolio ic cr ps ash) pfx)
    (t : ℕ) (p : ℚ) (ty : PositionType) (q : Option ℚ) :
    openTradeCount s ≤ 1 ∧
    (openTradeCount s = 1 ↔ s.current_position.isSome = true) ∧
    (s.current_position.isSome = true →
      (s.close_position t p).2.trades.dropLast = s.trades.dropLast ∧
      (s.close_position t p).2.trades.length = s.trades.length ∧
      ((s.close_position t p).2.trades.getLast?.map Trade.status)
        = some TradeStatus.CLOSED ∧
      (s.close_position t p).2.current_position = none) ∧
    (s.current_position.isSome = true → s.open_position t p ty q = (false, s)) := by
  have hinv : PortfolioInv s := by
    rw [hs]
    exact foldl_stepBar_inv sl ash pfx _ (inv_mkPortfolio ic cr ps ash)
  obtain ⟨h1, h2⟩ := openCount_of_inv s hinv
  exact ⟨h1, h2, fun hp => close_position_of_inv s t p hinv hp,
    fun hp => open_position_isSome s t p ty q hp⟩

/-- C7 witness: after a concrete one-bar run that opens a LONG position,
the log has exactly one OPEN trade, closing marks that most recent entry
CLOSED, and a further open is declined. -/
theorem c7_single_open_trade_witness :
    openTradeCount c7RunState ≤ 1 ∧
    (openTradeCount c7RunState = 1 ↔ c7RunState.current_position.isSome = true) ∧
    ((c7RunState.close_position 1 20).2.trades.dropLast
        = c7RunState.trades.dropLast ∧
      (c7RunState.close_position 1 20).2.trades.length
        = c7RunState.trades.length ∧
      ((c7RunState.close_position 1 20).2.trades.getLast?.map Trade.status)
        = some TradeStatus.CLOSED ∧
      (c7RunState.close_position 1 20).2.current_position = none) ∧
    c7RunState.open_position 1 20 PositionType.LONG none = (false, c7RunState) := by
  have hS : c7RunState.current_position.isSome = true := by
    norm_num [c7RunState, stepBar, processSignal, executionPrice,
      Portfolio.open_position, Portfolio.update, mkPortfolio, autoQuantity]
    decide
  have h := c7_single_open_trade 100 0 1 0 false [⟨0, 10, SignalType.BUY⟩]
    c7RunState rfl 1 20 PositionType.LONG none
  exact ⟨h.1, h.2.1, h.2.2.1 hS, h.2.2.2 hS⟩

/-- C9: with cash ≥ 0, price > 0, position_size ≤ 1, no open position and
an allowed side, an auto-sized open_position always succeeds, and (when
1 + commission_rate ≠ 0) the required capital
quantity × price + commission equals cash × position_size, which never
exceeds cash — so the insufficient-funds decline branch is unreachable for
auto-sized opens under exact arithmetic. -/
theorem c9_auto_sized_open_succeeds (s : Portfolio) (t : ℕ) (price : ℚ)
    (ptype : PositionType)
    (h1 : s.current_position = none) (h2 : 0 ≤ s.cash)
    (h3 : s.position_size ≤ 1) (h4 : 0 < price)
    (h5 : ptype = PositionType.LONG ∨ s.allow_short = true) :
    (s.open_position t price ptype none).1 = true ∧
    (1 + s.commission_rate ≠ 0 →
      autoQuantity s price * price + autoQuantity s price * price * s.commission_rate
        = s.cash * s.position_size) := by
  have hqp : autoQuantity s price * price
      = s.cash * s.position_size / (1 + s.commission_rate) := by
    unfold autoQuantity
    exact div_mul_cancel₀ _ (ne_of_gt h4)
  have hreq : autoQuantity s price * price + autoQuantity s price * price * s.commission_rate
      = s.cash * s.position_size / (1 + s.commission_rate) * (1 + s.commission_rate) := by
    rw [hqp]; ring
  have hle : autoQuantity s price * price + autoQuantity s price * price * s.commission_rate
      ≤ s.cash := by
    rw [hreq]
    by_cases hc : (1 + s.commission_rate) = 0
    · rw [hc, mul_zero]; exact h2
    · rw [div_mul_cancel₀ _ hc]
      calc s.cash * s.position_size ≤ s.cash * 1 := mul_le_mul_of_nonneg_left h3 h2
        _ = s.cash := mul_one _
  constructor
  · unfold Portfolio.open_position
    split
    · next hs => rw [h1] at hs; simp at hs
    · split
      · next hg => exact absurd hg (by rcases h5 with h | h <;> simp [h])
      · split
        · simp only [if_neg (not_lt.mpr hle)]
        · next heq => cases heq
  · intro hc
    rw [hreq, div_mul_cancel₀ _ hc]

/-- C9 witness: with 10000 cash, commission rate 0.001, position size 1
and price 100, the auto-sized open succeeds and the required capital
equals cash × position_size. -/
theorem c9_auto_sized_open_witness :
    (c9Portfolio.open_position 0 100 PositionType.LONG none).1 = true ∧
    (1 + c9Portfolio.commission_rate ≠ 0 →
      autoQuantity c9Portfolio 100 * 100
          + autoQuantity c9Portfolio 100 * 100 * c9Portfolio.commission_rate
        = c9Portfolio.cash * c9Portfolio.position_size) :=
  c9_auto_sized_open_succeeds c9Portfolio 0 100 PositionType.LONG rfl
    (by norm_num [c9Portfolio, mkPortfolio])
    (by norm_num [c9Portfolio, mkPortfolio])
    (by norm_num)
    (Or.inl rfl)

/-- C3 counterexample: a single-sample equity curve does NOT yield an
empty metrics set — the return-metrics and drawdown-metrics dictionaries
are non-empty for the curve [100]; only the risk-metrics dictionary is
empty. -/
theorem c3_single_sample_counterexample :
    calculateReturnMetrics [100] 100 ≠ none ∧
    calculateDrawdownMetrics [100] ≠ none ∧
    calculateRiskMetrics [100] 0 = none := by
  refine ⟨?_, ?_, ?_⟩
  · simp [calculateReturnMetrics]
  · simp [calculateDrawdownMetrics]
  · simp [calculateRiskMetrics]

/-- C3 amended: an empty equity curve yields empty return, risk and
drawdown metric sets; a curve with fewer than two samples yields an empty
risk-metrics set (but a single-sample curve still yields non-empty return
and drawdown metrics, with NaN mean/volatility fields); a trade log with
zero closed trades yields an empty trade-metrics set. -/
theorem c3_empty_metrics_amended (curve : List ℚ) (ic rfr : ℚ) (trades : List Trade) :
    (curve = [] → calculateReturnMetrics curve ic = none) ∧
    (curve.length < 2 → calculateRiskMetrics curve rfr = none) ∧
    (curve = [] → calculateDrawdownMetrics curve = none) ∧
    (closedTrades trades = [] → calculateTradeMetrics trades = none) := by
  refine ⟨?_, ?_, ?_, ?_⟩
  · intro h; rw [h]; rfl
  · intro h; unfold calculateRiskMetrics; rw [if_pos h]
  · intro h; rw [h]; rfl
  · intro h; unfold calculateTradeMetrics; rw [h]

/-- C3 amended witness: concrete evaluations of the amended claim at the
empty curve, the singleton curve [100] and a log holding one OPEN trade. -/
theorem c3_empty_metrics_amended_witness :
    calculateReturnMetrics [] 100 = none ∧
    calculateRiskMetrics [100] 0 = none ∧
    calculateDrawdownMetrics [] = none ∧
    calculateTradeMetrics [trOpenEx] = none := by
  have h1 := c3_empty_metrics_amended [] 100 0 [trOpenEx]
  have h2 := c3_empty_metrics_amended [100] 100 0 [trOpenEx]
  exact ⟨h1.1 rfl, h2.2.1 (by norm_num), h1.2.2.1 rfl,
    h1.2.2.2 (by simp [closedTrades, trOpenEx])⟩

/-- C8 counterexample: on the strictly decreasing all-negative equity
curve [−5, −10] the computed maximum drawdown is 0, refuting "maximum
drawdown is 0 iff the equity series is non-decreasing" (the negative
running maximum flips the sign of the drawdown ratio). -/
theorem c8_max_drawdown_counterexample :
    maxDrawdown [-5, -10] = 0 ∧ ¬ List.Chain' (· ≤ ·) [(-5 : ℚ), -10] := by
  constructor
  · norm_num [maxDrawdown, drawdowns, ddAux, listMin, max_self,
      max_eq_left (show (-10 : ℚ) ≤ -5 by norm_num)]
  · norm_num [List.chain'_cons, List.chain'_singleton]

theorem ddAux_mem_nonpos (l : List ℚ) :
    ∀ m : ℚ, 0 < m → ∀ y ∈ ddAux m l, y ≤ 0 := by
  induction l with
  | nil => intro m hm y hy; cases hy
  | cons x xs ih =>
    intro m hm y hy
    have hmax : 0 < max m x := lt_of_lt_of_le hm (le_max_left m x)
    rcases List.mem_cons.mp hy with h | h
    · subst h
      have hx : x - max m x ≤ 0 := sub_nonpos.mpr (le_max_right m x)
      have hq : (x - max m x) / max m x ≤ 0 :=
        div_nonpos_iff.mpr (Or.inr ⟨hx, le_of_lt hmax⟩)
      linarith
    · exact ih (max m x) hmax y h

theorem ddAux_all_zero_iff (l : List ℚ) :
    ∀ m : ℚ, 0 < m →
      ((∀ y ∈ ddAux m l, y = 0) ↔ List.Chain (· ≤ ·) m l) := by
  induction l with
  | nil => intro m hm; simp [ddAux]
  | cons x xs ih =>
    intro m hm
    have hmax : 0 < max m x := lt_of_lt_of_le hm (le_max_left m x)
    constructor
    · intro hall
      have h0 : (x - max m x) / max m x * 100 = 0 :=
        hall _ (List.mem_cons_self _ _)
      have hx : max m x = x := by
        rcases mul_eq_zero.mp h0 with h | h
        · rcases div_eq_zero_iff.mp h with h | h
          · exact (sub_eq_zero.mp h).symm
          · exact absurd h (ne_of_gt hmax)
        · norm_num at h
      have hmx : m ≤ x := max_eq_right_iff.mp hx
      have hrest : ∀ y ∈ ddAux x xs, y = 0 := by
        intro y hy
        exact hall y (List.mem_cons_of_mem _ (by rw [hx]; exact hy))
      exact List.Chain.cons hmx
        ((ih x (lt_of_lt_of_le hm hmx)).mp hrest)
    · intro hch
      cases hch with
      | cons hmx hch2 =>
        have hx : max m x = x := max_eq_right hmx
        intro y hy
        rcases List.mem_cons.mp hy with h | h
        · subst h
          rw [hx, sub_self, zero_div, zero_mul]
        · rw [hx] at h
          exact (ih x (lt_of_lt_of_le hm hmx)).mpr hch2 y h

theorem foldl_min_mem (l : List ℚ) : ∀ a : ℚ, l.foldl min a ∈ a :: l := by
  induction l with
  | nil => intro a; simp
  | cons b bs ih =>
    intro a
    simp only [List.foldl_cons]
    rcases List.mem_cons.mp (ih (min a b)) with h | h
    · rw [h]
      rcases min_choice a b with hc | hc <;> rw [hc] <;> simp
    · simp [List.mem_cons_of_mem, h]

theorem foldl_min_le (l : List ℚ) :
    ∀ a y : ℚ, y ∈ a :: l → l.foldl min a ≤ y := by
  induction l with
  | nil =>
    intro a y hy
    rw [List.mem_singleton.mp hy]
    exact le_refl a
  | cons b bs ih =>
    intro a y hy
    simp only [List.foldl_cons]
    rcases List.mem_cons.mp hy with h | h
    · rw [h]
      exact le_trans (ih (min a b) (min a b) (List.mem_cons_self _ _)) (min_le_left a b)
    · rcases List.mem_cons.mp h with h2 | h2
      · rw [h2]
        exact le_trans (ih (min a b) (min a b) (List.mem_cons_self _ _)) (min_le_right a b)
      · exact ih (min a b) y (List.mem_cons_of_mem _ h2)

/-- C8 amended: the computed maximum drawdown is always ≥ 0, and for every
non-empty equity curve whose initial value is positive (hence every
running maximum is positive), it is 0 iff the curve is non-decreasing. -/
theorem c8_max_drawdown_amended (curve : List ℚ) :
    0 ≤ maxDrawdown curve ∧
    (∀ x xs, curve = x :: xs → 0 < x →
      (maxDrawdown curve = 0 ↔ List.Chain' (· ≤ ·) curve)) := by
  constructor
  · cases curve with
    | nil => exact le_refl 0
    | cons x xs => exact abs_nonneg _
  · intro x xs hc hx
    subst hc
    have hdd : drawdowns (x :: xs) = 0 :: ddAux x xs := by
      simp [drawdowns, ddAux, max_self]
    have hnp := ddAux_mem_nonpos xs x hx
    have hmd : maxDrawdown (x :: xs) = |listMin (drawdowns (x :: xs))| := rfl
    have hlm : listMin (0 :: ddAux x xs) = (ddAux x xs).foldl min 0 := rfl
    rw [hmd, hdd, abs_eq_zero, hlm]
    constructor
    · intro hmin
      have hall : ∀ y ∈ ddAux x xs, y = 0 := by
        intro y hy
        have h1 : (ddAux x xs).foldl min 0 ≤ y :=
          foldl_min_le (ddAux x xs) 0 y (List.mem_cons_of_mem _ hy)
        rw [hmin] at h1
        exact le_antisymm (hnp y hy) h1
      exact (ddAux_all_zero_iff xs x hx).mp hall
    · intro hch
      have hall : ∀ y ∈ ddAux x xs, y = 0 :=
        (ddAux_all_zero_iff xs x hx).mpr hch
      rcases List.mem_cons.mp (foldl_min_mem (ddAux x xs) 0) with h | h
      · exact h
      · exact hall _ h

/-- C8 amended witness: the amended equivalence evaluated at the concrete
positive curve [1, 2]. -/
theorem c8_max_drawdown_amended_witness :
    0 ≤ maxDrawdown [(1 : ℚ), 2] ∧
    (maxDrawdown [(1 : ℚ), 2] = 0 ↔ List.Chain' (· ≤ ·) [(1 : ℚ), 2]) :=
  ⟨(c8_max_drawdown_amended [(1 : ℚ), 2]).1, (c8_max_drawdown_amended [(1 : ℚ), 2]).2 1 [2] rfl (by norm_num)⟩

theorem update_position_map (s : Portfolio) (t : ℕ) (p : ℚ) :
    (s.update t p).current_position
      = s.current_position.map (fun pos => { pos with current_price := p }) := by
  unfold Portfolio.update
  split
  · next pos hp => rw [hp]; rfl
  · next hp => rw [hp]; rfl

theorem update_equity_some (s : Portfolio) (t : ℕ) (p : ℚ) (pos : Position)
    (hp : s.current_position = some pos) :
    (s.update t p).equity
      = s.cash + Position.unrealized_pnl { pos with current_price := p }
          + pos.quantity * p := by
  unfold Portfolio.update
  rw [hp]

theorem update_equity_none (s : Portfolio) (t : ℕ) (p : ℚ)
    (hp : s.current_position = none) :
    (s.update t p).equity = s.cash := by
  unfold Portfolio.update
  rw [hp]

theorem open_position_drop_new (s : Portfolio) (t : ℕ) (p : ℚ)
    (ty : PositionType) (q : Option ℚ) :
    ∀ tr ∈ (s.open_position t p ty q).2.trades.drop s.trades.length,
      tr.entry_price = p ∧ tr.status = TradeStatus.OPEN := by
  unfold Portfolio.open_position
  split
  · simp [List.drop_length]
  · split
    · simp [List.drop_length]
    · split <;> (dsimp only; split) <;> simp [List.drop_length]

theorem open_position_trades_extend (s : Portfolio) (t : ℕ) (p : ℚ)
    (ty : PositionType) (q : Option ℚ) :
    ∃ tl, (s.open_position t p ty q).2.trades = s.trades ++ tl := by
  unfold Portfolio.open_position
  split
  · exact ⟨[], (List.append_nil _).symm⟩
  · split
    · exact ⟨[], (List.append_nil _).symm⟩
    · split <;> (dsimp only; split) <;>
        first
          | exact ⟨[], (List.append_nil _).symm⟩
          | exact ⟨_, rfl⟩

theorem close_position_trades_length (s : Portfolio) (t : ℕ) (p : ℚ) :
    (s.close_position t p).2.trades.length = s.trades.length := by
  unfold Portfolio.close_position
  split
  · rfl
  · split
    · next tr heq =>
      split
      · have hne : s.trades ≠ [] := by
          intro h0; rw [h0] at heq; cases heq
        have hpos := List.length_pos.mpr hne
        simp [List.length_dropLast]
        omega
      · rfl
    · rfl

theorem executionPrice_buy (sl : ℚ) (b : Bar) (h : b.signal = SignalType.BUY) :
    executionPrice sl b = b.close * (1 + sl) := by
  unfold executionPrice; rw [h]

theorem executionPrice_sell (sl : ℚ) (b : Bar) (h : b.signal = SignalType.SELL) :
    executionPrice sl b = b.close * (1 - sl) := by
  unfold executionPrice; rw [h]

theorem processSignal_drop_new (sl : ℚ) (ash : Bool) (s : Portfolio) (b : Bar) :
    ∀ tr ∈ (processSignal sl ash s b).trades.drop s.trades.length,
      tr.entry_price = executionPrice sl b ∧ tr.status = TradeStatus.OPEN := by
  unfold processSignal
  split
  · split
    · dsimp only
      split
      · have hlen := close_position_trades_length s b.t (executionPrice sl b)
        split
        · intro tr htr
          rw [← hlen] at htr
          exact open_position_drop_new _ _ _ _ _ tr htr
        · intro tr htr
          rw [← hlen, List.drop_length] at htr
          cases htr
      · split
        · intro tr htr
          exact open_position_drop_new _ _ _ _ _ tr htr
        · intro tr htr
          rw [List.drop_length] at htr
          cases htr
    · dsimp only
      split
      · intro tr htr
        exact open_position_drop_new _ _ _ _ _ tr htr
      · intro tr htr
        rw [List.drop_length] at htr
        cases htr
  · split
    · dsimp only
      split
      · have hlen := close_position_trades_length s b.t (executionPrice sl b)
        split
        · intro tr htr
          rw [← hlen] at htr
          exact open_position_drop_new _ _ _ _ _ tr htr
        · intro tr htr
          rw [← hlen, List.drop_length] at htr
          cases htr
      · split
        · intro tr htr
          exact open_position_drop_new _ _ _ _ _ tr htr
        · intro tr htr
          rw [List.drop_length] at htr
          cases htr
    · dsimp only
      split
      · intro tr htr
        exact open_position_drop_new _ _ _ _ _ tr htr
      · intro tr htr
        rw [List.drop_length] at htr
        cases htr
  · intro tr htr
    rw [List.drop_length] at htr
    cases htr

theorem processSignal_close_fill (sl : ℚ) (ash : Bool) (s : Portfolio) (b : Bar)
    (pos : Position) (tr0 : Trade)
    (hps : s.current_position = some pos)
    (hlast : s.trades.getLast? = some tr0)
    (ho : tr0.status = TradeStatus.OPEN)
    (hcond : (b.signal = SignalType.BUY ∧ pos.position_type = PositionType.SHORT) ∨
             (b.signal = SignalType.SELL ∧ pos.position_type = PositionType.LONG)) :
    ((processSignal sl ash s b).trades.getD (s.trades.length - 1) default).exit_price
        = executionPrice sl b ∧
    ((processSignal sl ash s b).trades.getD (s.trades.length - 1) default).status
        = TradeStatus.CLOSED := by
  have hne : s.trades ≠ [] := by intro h0; rw [h0] at hlast; cases hlast
  have hposlen := List.length_pos.mpr hne
  have hceq := close_position_eq s b.t (executionPrice sl b) pos tr0 hps hlast ho
  have hctr : (s.close_position b.t (executionPrice sl b)).2.trades
      = s.trades.dropLast ++
          [tr0.close_trade b.t (executionPrice sl b)
            (pos.quantity * executionPrice sl b * s.commission_rate)] := by
    rw [hceq]
  have hext : ∃ tl, (processSignal sl ash s b).trades
      = (s.close_position b.t (executionPrice sl b)).2.trades ++ tl := by
    rcases hcond with ⟨hsig, hty⟩ | ⟨hsig, hty⟩
    · unfold processSignal
      rw [hsig]
      dsimp only
      rw [hps]
      dsimp only
      rw [if_pos hty]
      split
      · exact open_position_trades_extend _ _ _ _ _
      · exact ⟨[], (List.append_nil _).symm⟩
    · unfold processSignal
      rw [hsig]
      dsimp only
      rw [hps]
      dsimp only
      rw [if_pos hty]
      split
      · exact open_position_trades_extend _ _ _ _ _
      · exact ⟨[], (List.append_nil _).symm⟩
  obtain ⟨tl, htl⟩ := hext
  have hidx : s.trades.length - 1
      < (s.close_position b.t (executionPrice sl b)).2.trades.length := by
    rw [close_position_trades_length]
    omega
  rw [htl, List.getD_append _ _ _ _ hidx, hctr]
  have hlen2 : s.trades.length - 1 = s.trades.dropLast.length := by
    simp [List.length_dropLast]
  rw [hlen2, List.getD_append_right _ _ _ _ (le_refl _)]
  simp
  exact ⟨rfl, rfl⟩

/-- C5: in each loop iteration, every newly opened trade records the
slippage-adjusted execution price (close×(1+slippage) on BUY,
close×(1−slippage) on SELL) as its entry price, a close triggered by an
opposite signal records that execution price as the exit price of the most
recent OPEN trade, while the per-bar update marks the position and equity
at the unmodified close price — slippage never enters the mark-to-market
equity value. -/
theorem c5_slippage_only_on_fills (sl : ℚ) (ash : Bool) (s : Portfolio) (b : Bar) :
    ((stepBar sl ash s b).equity_curve
        = s.equity_curve ++ [(stepBar sl ash s b).equity]) ∧
    ((stepBar sl ash s b).timestamps = s.timestamps ++ [b.t]) ∧
    (∀ pos, (stepBar sl ash s b).current_position = some pos →
      pos.current_price = b.close ∧
      (stepBar sl ash s b).equity
        = (stepBar sl ash s b).cash + pos.unrealized_pnl + pos.quantity * b.close) ∧
    ((stepBar sl ash s b).current_position = none →
      (stepBar sl ash s b).equity = (stepBar sl ash s b).cash) ∧
    (b.signal = SignalType.BUY → executionPrice sl b = b.close * (1 + sl)) ∧
    (b.signal = SignalType.SELL → executionPrice sl b = b.close * (1 - sl)) ∧
    (∀ tr ∈ (stepBar sl ash s b).trades.drop s.trades.length,
      tr.entry_price = executionPrice sl b ∧ tr.status = TradeStatus.OPEN) ∧
    (∀ pos tr0, s.current_position = some pos → s.trades.getLast? = some tr0 →
      tr0.status = TradeStatus.OPEN →
      ((b.signal = SignalType.BUY ∧ pos.position_type = PositionType.SHORT) ∨
       (b.signal = SignalType.SELL ∧ pos.position_type = PositionType.LONG)) →
      ((stepBar sl ash s b).trades.getD (s.trades.length - 1) default).exit_price
          = executionPrice sl b ∧
      ((stepBar sl ash s b).trades.getD (s.trades.length - 1) default).status
          = TradeStatus.CLOSED) := by
  refine ⟨stepBar_equity_curve sl ash s b, stepBar_timestamps sl ash s b,
    ?_, ?_, executionPrice_buy sl b, executionPrice_sell sl b, ?_, ?_⟩
  · intro pos h
    have hm := update_position_map (processSignal sl ash s b) b.t b.close
    unfold stepBar at h
    rw [hm] at h
    obtain ⟨pos1, hp1, hf⟩ := Option.map_eq_some'.mp h
    constructor
    · rw [← hf]
    · unfold stepBar
      rw [update_equity_some _ _ _ pos1 hp1, update_cash, ← hf]
  · intro h
    have hm := update_position_map (processSignal sl ash s b) b.t b.close
    unfold stepBar at h ⊢
    rw [hm] at h
    have hn := Option.map_eq_none'.mp h
    rw [update_equity_none _ _ _ hn, update_cash]
  · unfold stepBar
    rw [update_trades]
    exact processSignal_drop_new sl ash s b
  · intro pos tr0 hps hlast ho hcond
    unfold stepBar
    rw [update_trades]
    exact processSignal_close_fill sl ash s b pos tr0 hps hlast ho hcond

/-- C5 witness: the per-bar property instantiated at slippage 0.1, a BUY
bar at close 100, and a fresh 1000-cash portfolio. -/
theorem c5_slippage_only_on_fills_witness :
    ((stepBar (1/10) false (mkPortfolio 1000 0 1 false) ⟨0, 100, SignalType.BUY⟩).equity_curve
        = (mkPortfolio 1000 0 1 false).equity_curve ++
          [(stepBar (1/10) false (mkPortfolio 1000 0 1 false) ⟨0, 100, SignalType.BUY⟩).equity]) ∧
    ((stepBar (1/10) false (mkPortfolio 1000 0 1 false) ⟨0, 100, SignalType.BUY⟩).timestamps
        = (mkPortfolio 1000 0 1 false).timestamps ++ [(0 : ℕ)]) ∧
    (∀ pos, (stepBar (1/10) false (mkPortfolio 1000 0 1 false) ⟨0, 100, SignalType.BUY⟩).current_position = some pos →
      pos.current_price = 100 ∧
      (stepBar (1/10) false (mkPortfolio 1000 0 1 false) ⟨0, 100, SignalType.BUY⟩).equity
        = (stepBar (1/10) false (mkPortfolio 1000 0 1 false) ⟨0, 100, SignalType.BUY⟩).cash
            + pos.unrealized_pnl + pos.quantity * 100) ∧
    ((stepBar (1/10) false (mkPortfolio 1000 0 1 false) ⟨0, 100, SignalType.BUY⟩).current_position = none →
      (stepBar (1/10) false (mkPortfolio 1000 0 1 false) ⟨0, 100, SignalType.BUY⟩).equity
        = (stepBar (1/10) false (mkPortfolio 1000 0 1 false) ⟨0, 100, SignalType.BUY⟩).cash) ∧
    (Bar.signal ⟨0, 100, SignalType.BUY⟩ = SignalType.BUY →
      executionPrice (1/10) ⟨0, 100, SignalType.BUY⟩ = 100 * (1 + 1/10)) ∧
    (Bar.signal ⟨0, 100, SignalType.BUY⟩ = SignalType.SELL →
      executionPrice (1/10) ⟨0, 100, SignalType.BUY⟩ = 100 * (1 - 1/10)) ∧
    (∀ tr ∈ (stepBar (1/10) false (mkPortfolio 1000 0 1 false) ⟨0, 100, SignalType.BUY⟩).trades.drop
        (mkPortfolio 1000 0 1 false).trades.length,
      tr.entry_price = executionPrice (1/10) ⟨0, 100, SignalType.BUY⟩ ∧
      tr.status = TradeStatus.OPEN) ∧
    (∀ pos tr0, (mkPortfolio 1000 0 1 false).current_position = some pos →
      (mkPortfolio 1000 0 1 false).trades.getLast? = some tr0 →
      tr0.status = TradeStatus.OPEN →
      ((Bar.signal ⟨0, 100, SignalType.BUY⟩ = SignalType.BUY ∧ pos.position_type = PositionType.SHORT) ∨
       (Bar.signal ⟨0, 100, SignalType.BUY⟩ = SignalType.SELL ∧ pos.position_type = PositionType.LONG)) →
      ((stepBar (1/10) false (mkPortfolio 1000 0 1 false) ⟨0, 100, SignalType.BUY⟩).trades.getD
          ((mkPortfolio 1000 0 1 false).trades.length - 1) default).exit_price
        = executionPrice (1/10) ⟨0, 100, SignalType.BUY⟩ ∧
      ((stepBar (1/10) false (mkPortfolio 1000 0 1 false) ⟨0, 100, SignalType.BUY⟩).trades.getD
          ((mkPortfolio 1000 0 1 false).trades.length - 1) default).status
        = TradeStatus.CLOSED) :=
  c5_slippage_only_on_fills (1/10) false (mkPortfolio 1000 0 1 false) ⟨0, 100, SignalType.BUY⟩

end Backtest
